import Mathlib

/-!
Shallow embedding of `src/btparser.py` (a passive BitTorrent peer-wire-stream
analyzer, Python 2) in Lean 4.

Conventions of the embedding:
* Python byte strings are `List Nat` (each element a byte value).
* Python exceptions are the error channel of `Except`.  Because Python
  exceptions leave the mutated object behind, every fallible operation on the
  parser returns `Except (PErr × PState) PState`: the error carries the state
  at the moment of the raise, so `except` handlers can resume from it.
* Machine integers: the stream length prefix is read through
  `ntohl(struct.unpack('I', ...))` on a little-endian host, i.e. it is the
  big-endian value of 4 bytes, a `Nat < 2^32` by construction.  Python ints
  are unbounded (`Int`/`Nat`).
* The external `bencode` library and `hashlib.sha1` are not part of the
  repository.  `bdecode`/`bencodeEncode` below are modelled from the spec
  ("the generic bencode encode/decode library (treated as a black-box codec
  with a defined failure mode for malformed input)"); SHA-1 is kept abstract
  as a function field `sha1` of the parser state, so every theorem about
  hashing holds for an arbitrary digest function.
* Logging is a presentation concern; only the log records whose content the
  spec makes claims about (the ut_pex tallies, piece completion and hash
  match/mismatch, the ut_metadata data-size report) are recorded, in `logs`.
-/
/-- Python exceptions that can be raised while parsing.
`unexpectedEndOfStream` and `invalidStream` are the two subclasses of
`BitTorrentParserError` defined by the source; the remaining constructors are
builtin Python exceptions (`bencode.BTL.BTFailure`, `KeyError`, `TypeError`,
`AssertionError`, `struct.error`, `IndexError`, `AttributeError`). -/
inductive PErr where
  | unexpectedEndOfStream
  | invalidStream
  | btFailure
  | keyError
  | typeError
  | assertionError
  | structError
  | indexError
  | attributeError
deriving DecidableEq, Repr

/-- `isinstance(e, BitTorrentParserError)`: the two error classes declared by
the source file; every other constructor is an unrelated Python exception. -/
def PErr.isBitTorrentParserError : PErr → Bool
  | .unexpectedEndOfStream => true
  | .invalidStream => true
  | _ => false

/-- Bencoded values (the data model of the external codec: integers, byte
strings, lists, dictionaries with byte-string keys). -/
inductive BValue where
  | int (i : Int)
  | bytes (s : List Nat)
  | list (l : List BValue)
  | dict (d : List (List Nat × BValue))
deriving Repr

/-- Bytes of a Lean string literal (used for the ASCII names appearing in the
source: `"BitTorrent protocol"`, `"ut_pex"`, dictionary keys, ...). -/
def strBytes (s : String) : List Nat :=
  s.data.map Char.toNat

/-- ASCII decimal digits of a natural number. -/
def natDecimal (n : Nat) : List Nat :=
  (Nat.toDigits 10 n).map Char.toNat

/-- ASCII decimal representation of an integer (with a leading `-` sign for
negative values), as used inside bencoded integers and string-length
prefixes. -/
def intDecimal (i : Int) : List Nat :=
  if i < 0 then 45 :: natDecimal i.natAbs else natDecimal i.natAbs

mutual
/-- Modelled from the spec: `bencode.bencode`, the encoder of the external
black-box codec ("Bencode: the torrent/peer-wire serialization format for
dictionaries, lists, integers, and byte strings").  In the source it is
called only in `parse_message_ut_metadata`, where its (string) result is
subtracted from an int — the value the encoder returns is therefore never
observable, only its type. -/
def bencodeEncode : BValue → List Nat
  | .int i => 105 :: intDecimal i ++ [101]
  | .bytes s => natDecimal s.length ++ [58] ++ s
  | .list l => 108 :: bencodeEncodeList l ++ [101]
  | .dict d => 100 :: bencodeEncodePairs d ++ [101]

def bencodeEncodeList : List BValue → List Nat
  | [] => []
  | v :: vs => bencodeEncode v ++ bencodeEncodeList vs

def bencodeEncodePairs : List (List Nat × BValue) → List Nat
  | [] => []
  | (k, v) :: kvs =>
      bencodeEncode (.bytes k) ++ bencodeEncode v ++ bencodeEncodePairs kvs
end

/-- Is this byte an ASCII decimal digit? -/
def isDigitByte (b : Nat) : Bool := 48 ≤ b && b ≤ 57

/-- Read a run of ASCII digits, returning the parsed number, the number of
digits read, and the rest of the input. -/
def readDigits : List Nat → Nat → Nat × Nat × List Nat
  | [], acc => (acc, 0, [])
  | b :: rest, acc =>
      if isDigitByte b then
        let (v, c, r) := readDigits rest (acc * 10 + (b - 48))
        (v, c + 1, r)
      else (acc, 0, b :: rest)

mutual
/-- Modelled from the spec: one step of `bencode.bdecode`, the decoder of the
external black-box codec, parsing a single bencoded value off the front of
the input.  `fuel` only forces termination; it is always supplied large
enough that running out is unreachable for any input. -/
def bparseVal : Nat → List Nat → Option (BValue × List Nat)
  | 0, _ => none
  | _ + 1, [] => none
  | fuel + 1, c :: rest =>
      if c = 105 then
        -- 'i' <decimal, optionally signed> 'e'
        match rest with
        | 45 :: ds =>
            let (v, cnt, r) := readDigits ds 0
            match r with
            | 101 :: r' => if cnt = 0 then none else some (.int (-(v : Int)), r')
            | _ => none
        | ds =>
            let (v, cnt, r) := readDigits ds 0
            match r with
            | 101 :: r' => if cnt = 0 then none else some (.int (v : Int), r')
            | _ => none
      else if isDigitByte c then
        -- <length> ':' <bytes>
        let (v, _, r) := readDigits (c :: rest) 0
        match r with
        | 58 :: r' =>
            if v ≤ r'.length then some (.bytes (r'.take v), r'.drop v) else none
        | _ => none
      else if c = 108 then
        -- 'l' <values> 'e'
        match bparseMany fuel rest with
        | some (vs, r) => some (.list vs, r)
        | none => none
      else if c = 100 then
        -- 'd' <key-value pairs> 'e'
        match bparsePairs fuel rest with
        | some (kvs, r) => some (.dict kvs, r)
        | none => none
      else none

def bparseMany : Nat → List Nat → Option (List BValue × List Nat)
  | 0, _ => none
  | _ + 1, [] => none
  | fuel + 1, c :: rest =>
      if c = 101 then some ([], rest)
      else
        match bparseVal fuel (c :: rest) with
        | some (v, r) =>
            match bparseMany fuel r with
            | some (vs, r') => some (v :: vs, r')
            | none => none
        | none => none

def bparsePairs : Nat → List Nat → Option (List (List Nat × BValue) × List Nat)
  | 0, _ => none
  | _ + 1, [] => none
  | fuel + 1, c :: rest =>
      if c = 101 then some ([], rest)
      else
        match bparseVal fuel (c :: rest) with
        | some (.bytes k, r) =>
            match bparseVal fuel r with
            | some (v, r') =>
                match bparsePairs fuel r' with
                | some (kvs, r'') => some ((k, v) :: kvs, r'')
                | none => none
            | none => none
        | _ => none
end

/-- Modelled from the spec: `bencode.bdecode` of the external codec, with its
"defined failure mode for malformed input" — it raises
`bencode.BTL.BTFailure` unless the whole input is one well-formed value. -/
def bdecode (s : List Nat) : Except PErr BValue :=
  match bparseVal (2 * s.length + 4) s with
  | some (v, []) => .ok v
  | _ => .error .btFailure

/-- Python slice `s[a:b]` for non-negative bounds (clamped, empty when
`b ≤ a`). -/
def pySlice (s : List Nat) (a b : Nat) : List Nat :=
  (s.take b).drop a

/-- Python `ord(s[i])`: the byte at index `i`, raising `IndexError` past the
end. -/
def getByte (s : List Nat) (i : Nat) : Except PErr Nat :=
  match s.get? i with
  | some b => .ok b
  | none => .error .indexError

/-- Big-endian value of a list of bytes. -/
def beVal (l : List Nat) : Nat :=
  l.foldl (fun a b => a * 256 + b) 0

/-- `ntohl(struct.unpack('I', stream[n:n+4])[0])` on a little-endian host:
the big-endian 32-bit value of the 4 bytes at `n`; `struct.error` when the
slice is shorter than 4 bytes. -/
def readU32 (s : List Nat) (n : Nat) : Except PErr Nat :=
  let sl := pySlice s n (n + 4)
  if sl.length = 4 then .ok (beVal sl) else .error .structError

/-- `ntohs(struct.unpack('H', stream[n:n+2])[0])` on a little-endian host. -/
def readU16 (s : List Nat) (n : Nat) : Except PErr Nat :=
  let sl := pySlice s n (n + 2)
  if sl.length = 2 then .ok (beVal sl) else .error .structError

/-- Python `d[k]` on a bencoded value: a dictionary lookup (`KeyError` when
the key is absent), `TypeError` when the value is not a dictionary. -/
def dictGet (v : BValue) (k : List Nat) : Except PErr BValue :=
  match v with
  | .dict d =>
      match d.find? (fun kv => kv.1 = k) with
      | some kv => .ok kv.2
      | none => .error .keyError
  | _ => .error .typeError

/-- Python `k in d` on a bencoded dictionary (`False` on non-dictionaries,
matching `all(k in ut_pex for k in ...)` which simply yields no match). -/
def dictHas (v : BValue) (k : List Nat) : Bool :=
  match v with
  | .dict d => d.any (fun kv => kv.1 = k)
  | _ => false

/-- Python `d.items()` on the bencoded `m` sub-dict: `AttributeError` when
the value is not a dictionary. -/
def dictItems (v : BValue) : Except PErr (List (List Nat × BValue)) :=
  match v with
  | .dict d => .ok d
  | _ => .error .attributeError

/-- Python `len` of a bencoded value (`TypeError` on integers). -/
def pyLen (v : BValue) : Except PErr Nat :=
  match v with
  | .bytes s => .ok s.length
  | .list l => .ok l.length
  | .dict d => .ok d.length
  | .int _ => .error .typeError

/-- Iterating a bencoded payload with `ord(i)` applied to each element, as
the `ut_pex` flag-tally comprehensions do: well-defined on byte strings,
`TypeError` otherwise (`ord` of a non-character raises). -/
def pyIterBytes (v : BValue) : Except PErr (List Nat) :=
  match v with
  | .bytes s => .ok s
  | _ => .error .typeError

/-- Python `int - str` — the expression
`length - 2 - bencode.bencode(ut_metadata)` of `parse_message_ut_metadata`
(the source is missing a `len(...)` around the encoder call): subtracting a
string from an integer unconditionally raises `TypeError`. -/
def pySubIntStr (_ : Int) (_ : List Nat) : Except PErr Int :=
  .error .typeError

/-- Observer-event names: Python passes either a string literal (message
names) or the integer `20` (the generic wrapper emitted by
`__new_extended_message`). -/
inductive EvName where
  | str (s : String)
  | num (n : Nat)
deriving DecidableEq, Repr

/-- Attribute values carried by observer events. -/
inductive Attr where
  | nat (n : Nat)
  | bytes (b : List Nat)
  | bool (b : Bool)
  | bval (v : BValue)
deriving Repr

/-- One observer event: a `new_message(name, **attrs)` call or a
`new_extended_message(name, **attrs)` call (extension names are the byte
strings coming out of the bencoded handshake). -/
inductive Event where
  | message (name : EvName) (attrs : List (String × Attr))
  | extended (name : List Nat) (attrs : List (String × Attr))
deriving Repr

/-- Log records whose content the specification makes claims about.  All the
other `logger` calls of the source only echo already-modelled data and are
omitted as presentation. -/
inductive LogEvent where
  | utPex (added preferEncryption seeders dropped : Nat)
  | utPex6 (added preferEncryption seeders dropped : Nat)
  | pieceComplete (index : Nat)
  | hashMatch (index : Nat)
  | hashMismatch (index : Nat)
  | utMetadataData (size : Int)
deriving DecidableEq, Repr

/-- A torrent descriptor as used by `check_piece`: the `'piece length'` and
`'pieces'` entries of a bdecoded `info` dict (the only two keys the source
reads). -/
structure TorrentInfo where
  pieceLength : Int
  pieces : List Nat

/-- The mutable state of the running program: the fields of the
`MyBitTorrentParser` instance, plus the module-level
`extended_message_associtions` table (which in the source is a global,
outside any class), plus the observer events and claim-relevant log records
emitted so far.  `sha1` models `hashlib.sha1(...).digest()`, external to the
repository, as an arbitrary digest function. -/
structure PState where
  sha1 : List Nat → List Nat
  /-- module-level `extended_message_associtions`: extended sub-ID → name -/
  assoc : List (Int × List Nat)
  currentInfohash : List Nat
  currentPeerid : List Nat
  /-- `self.infos`: infohash → torrent descriptor -/
  infos : List (List Nat × TorrentInfo)
  /-- `self.pieces`: (infohash, piece index) → arrival list of (data, begin) -/
  pieces : List ((List Nat × Nat) × List (List Nat × Nat))
  currentPiecesSize : Nat
  events : List Event
  logs : List LogEvent

/-- Errors carry the parser state at the moment of the raise. -/
abbrev EErr := PErr × PState

/-- Attach the current state to a state-less exception. -/
def liftE (st : PState) : Except PErr α → Except EErr α
  | .ok a => .ok a
  | .error e => .error (e, st)

/-- Lookup in an association list by key (Python `dict` access by key). -/
def alistGet [DecidableEq κ] (l : List (κ × α)) (k : κ) : Option α :=
  match l.find? (fun kv => kv.1 = k) with
  | some kv => some kv.2
  | none => none

/-- Python `dict` store `d[k] = v`: overwrite in place or append. -/
def alistSet [DecidableEq κ] (l : List (κ × α)) (k : κ) (v : α) : List (κ × α) :=
  match l with
  | [] => [(k, v)]
  | kv :: rest => if kv.1 = k then (k, v) :: rest else kv :: alistSet rest k v

/-- Python `del d[k]`. -/
def alistDel [DecidableEq κ] (l : List (κ × α)) (k : κ) : List (κ × α) :=
  l.filter (fun kv => kv.1 ≠ k)

/-- `defaultdict(list)` read: the stored list, or `[]`. -/
def alistGetD [DecidableEq κ] (l : List (κ × List α)) (k : κ) : List α :=
  (alistGet l k).getD []

/-- Stable insertion of a fragment into a begin-sorted fragment list. -/
def insertFrag (x : List Nat × Nat) : List (List Nat × Nat) → List (List Nat × Nat)
  | [] => [x]
  | y :: ys => if x.2 ≤ y.2 then x :: y :: ys else y :: insertFrag x ys

/-- `blocks.sort(key=lambda r: r[1])`: Python's stable sort by the fragment
begin offset, modelled as stable insertion sort (any two stable sorts by the
same key agree). -/
def sortFrags : List (List Nat × Nat) → List (List Nat × Nat)
  | [] => []
  | x :: xs => insertFrag x (sortFrags xs)

/-- The fragment-merging loop of `check_piece`: starting at cursor `n`,
repeatedly take the first fragment whose begin equals `n`, append its data,
drop every fragment at that begin, and advance by the data length; stop when
the cursor reaches `piece_length` or no fragment starts at the cursor.
`fuel` is called with `blocks.length + 1`, which the loop can never exhaust
because each iteration removes at least one fragment. -/
def assembleBlocks (pieceLength : Int) :
    Nat → List (List Nat × Nat) → List Nat → Nat → List Nat
  | 0, _, piece, _ => piece
  | fuel + 1, blocks, piece, n =>
      if (n : Int) < pieceLength then
        match (blocks.filter (fun i => i.2 = n)).map (fun i => i.1) with
        | [] => piece
        | b :: _ =>
            assembleBlocks pieceLength fuel
              (blocks.filter (fun i => i.2 ≠ n)) (piece ++ b) (n + b.length)
      else piece

/-- `MyBitTorrentParser.check_piece`: skip when the current infohash has no
descriptor; otherwise sort the fragment list in place, merge an unbroken
prefix, and on exact completion log the completion, compare
`sha1(piece)` with `info['pieces'][index*20 : index*20+20]`, log the
match/mismatch, and delete the entry. -/
def check_piece (st : PState) (index : Nat) : Except EErr PState :=
  match alistGet st.infos st.currentInfohash with
  | none => .ok st
  | some info =>
      let key := (st.currentInfohash, index)
      let blocks := sortFrags (alistGetD st.pieces key)
      -- list.sort() mutates the stored list in place
      let st := { st with pieces := alistSet st.pieces key blocks }
      let piece := assembleBlocks info.pieceLength (blocks.length + 1) blocks [] 0
      if (piece.length : Int) = info.pieceLength then
        let st := { st with logs := st.logs ++ [LogEvent.pieceComplete index] }
        let gotHash := st.sha1 piece
        let expectedHash := pySlice info.pieces (index * 20) (index * 20 + 20)
        let st :=
          if gotHash = expectedHash then
            { st with logs := st.logs ++ [LogEvent.hashMatch index] }
          else
            { st with logs := st.logs ++ [LogEvent.hashMismatch index] }
        .ok { st with pieces := alistDel st.pieces key }
      else .ok st

/-- Read an event attribute that the reassembler uses as a number
(`attrs['index']`, `attrs['begin']`). -/
def attrNat (attrs : List (String × Attr)) (k : String) : Except PErr Nat :=
  match alistGet attrs k with
  | some (.nat n) => .ok n
  | some _ => .error .typeError
  | none => .error .keyError

/-- Read an event attribute that the reassembler uses as bytes
(`attrs['data']`). -/
def attrBytes (attrs : List (String × Attr)) (k : String) : Except PErr (List Nat) :=
  match alistGet attrs k with
  | some (.bytes b) => .ok b
  | some _ => .error .typeError
  | none => .error .keyError

/-- The observer hook `new_message` as overridden by `MyBitTorrentParser`
(the program's session observer): the call itself is the observer event and
is recorded; then, for `'piece'` events only, the fragment is appended to
`self.pieces[(current_infohash, index)]`, `current_pieces_size` grows by the
data length, and `check_piece` runs. -/
def new_message (st : PState) (name : EvName) (attrs : List (String × Attr)) :
    Except EErr PState :=
  let st := { st with events := st.events ++ [Event.message name attrs] }
  if name ≠ .str "piece" then .ok st
  else do
    let index ← liftE st (attrNat attrs "index")
    let begin_ ← liftE st (attrNat attrs "begin")
    let data ← liftE st (attrBytes attrs "data")
    let st := { st with currentPiecesSize := st.currentPiecesSize + data.length }
    let key := (st.currentInfohash, index)
    let st := { st with pieces := alistSet st.pieces key (alistGetD st.pieces key ++ [(data, begin_)]) }
    check_piece st index

/-- The observer hook `new_extended_message` (a no-op in the source beyond
being observable): records the extended event. -/
def new_extended_message (st : PState) (name : List Nat)
    (attrs : List (String × Attr)) : PState :=
  { st with events := st.events ++ [Event.extended name attrs] }

/-- `BitTorrentParser.__new_extended_message`: first the generic wrapper
`__new_message(20, extension_name=name, **attrs)` (note the integer event
name), then the specific `new_extended_message(name, **attrs)`. -/
def emit_extended_message (st : PState) (name : List Nat)
    (attrs : List (String × Attr)) : Except EErr PState := do
  let st ← new_message st (.num 20) (("extension_name", .bytes name) :: attrs)
  .ok (new_extended_message st name attrs)

/-- `@register_message(0)` / `(1)` / `(2)` / `(3)`: the four bare messages,
each emitting one event with no attributes. -/
def parse_message_choke (st : PState) (_stream : List Nat) (_n _length : Nat) :
    Except EErr PState :=
  new_message st (.str "choke") []

/-- `parse_message_unchoke`. -/
def parse_message_unchoke (st : PState) (_stream : List Nat) (_n _length : Nat) :
    Except EErr PState :=
  new_message st (.str "unchoke") []

/-- `parse_message_interested`. -/
def parse_message_interested (st : PState) (_stream : List Nat) (_n _length : Nat) :
    Except EErr PState :=
  new_message st (.str "interested") []

/-- `parse_message_not_interested`. -/
def parse_message_not_interested (st : PState) (_stream : List Nat) (_n _length : Nat) :
    Except EErr PState :=
  new_message st (.str "not_interested") []

/-- `@register_message(4)`: `have(index)`. -/
def parse_message_have (st : PState) (stream : List Nat) (n _length : Nat) :
    Except EErr PState := do
  let index ← liftE st (readU32 stream (n + 5))
  new_message st (.str "have") [("index", .nat index)]

/-- `@register_message(5)`: `bitfield` — note the source slices
`stream[n+5 : n+length]`, not `n+length+4`. -/
def parse_message_bitfield (st : PState) (stream : List Nat) (n length : Nat) :
    Except EErr PState :=
  let bitfield := pySlice stream (n + 5) (n + length)
  new_message st (.str "bitfield") [("bitfield", .bytes bitfield)]

/-- `@register_message(6)`: `request(index, begin, length)`. -/
def parse_message_request (st : PState) (stream : List Nat) (n _length : Nat) :
    Except EErr PState := do
  let index ← liftE st (readU32 stream (n + 5))
  let begin_ ← liftE st (readU32 stream (n + 9))
  let length ← liftE st (readU32 stream (n + 13))
  new_message st (.str "request")
    [("index", .nat index), ("begin", .nat begin_), ("length", .nat length)]

/-- `@register_message(7)`: `piece(index, begin, data)`.  `block_size` is the
Python int `length - 1 - 8` (negative when `length < 9`); `data` is the slice
`stream[n+13 : n+13+length-1-8]`, and the source asserts
`len(data) == block_size` — an `AssertionError` (not a
`BitTorrentParserError`) whenever `length < 9`. -/
def parse_message_piece (st : PState) (stream : List Nat) (n length : Nat) :
    Except EErr PState := do
  let index ← liftE st (readU32 stream (n + 5))
  let begin_ ← liftE st (readU32 stream (n + 9))
  let blockSize : Int := (length : Int) - 1 - 8
  let data := pySlice stream (n + 13) (n + 4 + length)
  if (data.length : Int) = blockSize then
    new_message st (.str "piece")
      [("index", .nat index), ("begin", .nat begin_), ("data", .bytes data)]
  else .error (.assertionError, st)

/-- `@register_message(8)`: `cancel(index, begin, length)`. -/
def parse_message_cancel (st : PState) (stream : List Nat) (n _length : Nat) :
    Except EErr PState := do
  let index ← liftE st (readU32 stream (n + 5))
  let begin_ ← liftE st (readU32 stream (n + 9))
  let length ← liftE st (readU32 stream (n + 13))
  new_message st (.str "cancel")
    [("index", .nat index), ("begin", .nat begin_), ("length", .nat length)]

/-- `@register_message(9)`: `port(port)`. -/
def parse_message_port (st : PState) (stream : List Nat) (n _length : Nat) :
    Except EErr PState := do
  let port ← liftE st (readU16 stream (n + 5))
  new_message st (.str "port") [("port", .nat port)]

/-- `@register_message(0x0d)`: `suggest_piece(index)`. -/
def parse_message_suggest_piece (st : PState) (stream : List Nat) (n _length : Nat) :
    Except EErr PState := do
  let index ← liftE st (readU32 stream (n + 5))
  new_message st (.str "suggest_piece") [("index", .nat index)]

/-- `@register_message(0x0e)`: `have_all`. -/
def parse_message_have_all (st : PState) (_stream : List Nat) (_n _length : Nat) :
    Except EErr PState :=
  new_message st (.str "have_all") []

/-- `@register_message(0x0f)`: `have_none`. -/
def parse_message_have_none (st : PState) (_stream : List Nat) (_n _length : Nat) :
    Except EErr PState :=
  new_message st (.str "have_none") []

/-- `@register_message(0x10)`: `reject` decodes and logs index/begin/length
but the source's event call is `self.__new_message('reject')` — the event
carries no attributes. -/
def parse_message_reject (st : PState) (stream : List Nat) (n _length : Nat) :
    Except EErr PState := do
  let _index ← liftE st (readU32 stream (n + 5))
  let _begin ← liftE st (readU32 stream (n + 9))
  let _length ← liftE st (readU32 stream (n + 13))
  new_message st (.str "reject") []

/-- `@register_message(0x11)`: `allowed_fast` decodes and logs the index but
the source's event call is `self.__new_message('allowed_fast')` — the event
carries no attributes. -/
def parse_message_allowed_fast (st : PState) (stream : List Nat) (n _length : Nat) :
    Except EErr PState := do
  let _index ← liftE st (readU32 stream (n + 5))
  new_message st (.str "allowed_fast") []

/-- `@register_extended_message('ut_metadata')`: bdecode the payload
(`BTFailure` remapped to `InvalidBitTorrentStreamError`); for
`msg_type == 1` the source computes `length - 2 - bencode.bencode(ut_metadata)`
— an int minus a string, an unconditional `TypeError` — before it could log
the size or emit the event. -/
def parse_message_ut_metadata (st : PState) (stream : List Nat) (n length : Nat) :
    Except EErr PState := do
  let utMetadata ←
    match bdecode (pySlice stream (n + 6) (n + length + 4)) with
    | .ok v => .ok v
    | .error _ => .error (PErr.invalidStream, st)
  let msgType ← liftE st (dictGet utMetadata (strBytes "msg_type"))
  let st ←
    match msgType with
    | .int 0 => .ok st   -- request: log only
    | .int 1 => do
        let size ← liftE st
          (pySubIntStr ((length : Int) - 2) (bencodeEncode utMetadata))
        .ok { st with logs := st.logs ++ [LogEvent.utMetadataData size] }
    | .int 2 => .ok st   -- reject: log only
    | _ => .ok st
  let piece ← liftE st (dictGet utMetadata (strBytes "piece"))
  emit_extended_message st (strBytes "ut_metadata") [("piece", .bval piece)]

/-- `@register_extended_message('upload_only')`: single-byte payload,
`IndexError` when empty; emits the boolean `payload[0] != '\x00'`. -/
def parse_message_upload_only (st : PState) (stream : List Nat) (n length : Nat) :
    Except EErr PState := do
  let payload := pySlice stream (n + 6) (n + length + 4)
  let b ← liftE st (getByte payload 0)
  emit_extended_message st (strBytes "upload_only") [("value", .bool (b ≠ 0))]

/-- `@register_extended_message('lt_tex')`: bdecode (`BTFailure` remapped to
`InvalidBitTorrentStreamError`), log `len(lt_tex['added'])`, emit the added
list. -/
def parse_message_lt_tex (st : PState) (stream : List Nat) (n length : Nat) :
    Except EErr PState := do
  let ltTex ←
    match bdecode (pySlice stream (n + 6) (n + length + 4)) with
    | .ok v => .ok v
    | .error _ => .error (PErr.invalidStream, st)
  let added ← liftE st (dictGet ltTex (strBytes "added"))
  let _count ← liftE st (pyLen added)
  emit_extended_message st (strBytes "lt_tex") [("added", .bval added)]

/-- `@register_extended_message('ut_pex')`: bdecode (`BTFailure` remapped),
tally the IPv4 peers.  The tallies reproduce the source verbatim:
`prefer_encryption` counts flag bytes with `(b & 0x01) == 1`, `seeders`
counts flag bytes with `(b & 0x02) == 1` (Python's `&` binds tighter than
`==`, so this is the comparison of an even value with 1), added/dropped peer
counts are `len(...) / 6` (IPv4) and `len(...) / 18` (IPv6). -/
def parse_message_ut_pex (st : PState) (stream : List Nat) (n length : Nat) :
    Except EErr PState := do
  let utPex ←
    match bdecode (pySlice stream (n + 6) (n + length + 4)) with
    | .ok v => .ok v
    | .error _ => .error (PErr.invalidStream, st)
  let added ← liftE st (dictGet utPex (strBytes "added"))
  let addedF ← liftE st (dictGet utPex (strBytes "added.f"))
  let flags ← liftE st (pyIterBytes addedF)
  let preferEncryption := (flags.filter (fun b => b &&& 0x01 == 1)).length
  let seeders := (flags.filter (fun b => b &&& 0x02 == 1)).length
  let addedLen ← liftE st (pyLen added)
  let dropped ← liftE st (dictGet utPex (strBytes "dropped"))
  let droppedLen ← liftE st (pyLen dropped)
  let st := { st with logs := st.logs ++
    [LogEvent.utPex (addedLen / 6) preferEncryption seeders (droppedLen / 6)] }
  let st ←
    if dictHas utPex (strBytes "added6") && dictHas utPex (strBytes "added6.f")
        && dictHas utPex (strBytes "dropped6") then do
      let added6 ← liftE st (dictGet utPex (strBytes "added6"))
      let added6Len ← liftE st (pyLen added6)
      let nonEmpty ←
        if added6Len > 0 then pure true
        else do
          let dropped6 ← liftE st (dictGet utPex (strBytes "dropped6"))
          let dropped6Len ← liftE st (pyLen dropped6)
          pure (decide (dropped6Len > 0))
      if nonEmpty then do
        let added6F ← liftE st (dictGet utPex (strBytes "added6.f"))
        let flags6 ← liftE st (pyIterBytes added6F)
        let preferEncryption6 := (flags6.filter (fun b => b &&& 0x01 == 1)).length
        let seeders6 := (flags6.filter (fun b => b &&& 0x02 == 1)).length
        let dropped6 ← liftE st (dictGet utPex (strBytes "dropped6"))
        let dropped6Len ← liftE st (pyLen dropped6)
        pure { st with logs := st.logs ++
          [LogEvent.utPex6 (added6Len / 18) preferEncryption6 seeders6
            (dropped6Len / 18)] }
      else pure st
    else pure st
  emit_extended_message st (strBytes "ut_pex") [("value", .bval utPex)]

/-- The `extended_message_parsers` registry: extension name → decoder. -/
def extendedMessageHandlers (name : List Nat) :
    Option (PState → List Nat → Nat → Nat → Except EErr PState) :=
  if name = strBytes "ut_metadata" then some parse_message_ut_metadata
  else if name = strBytes "upload_only" then some parse_message_upload_only
  else if name = strBytes "lt_tex" then some parse_message_lt_tex
  else if name = strBytes "ut_pex" then some parse_message_ut_pex
  else none

/-- `@register_message(20)` — `parser_message_extended` (the source's own
spelling).  Sub-ID 0 is an extension handshake: the payload is bdecoded
(`BTFailure` is *not* caught here) and each `m` entry with a nonzero value is
installed in the module-level table; for a zero value the source builds the
table with the name's entries filtered out, but assigns it to a fresh local
variable (`extended_message_associations`, spelled differently from the
module-level `extended_message_associtions`), so the module table is left
unchanged — reproduced by binding the filtered copy to an unused local.
A nonzero sub-ID is looked up in the table: absent → log only, no event;
present without a registered decoder → a bare `new_extended_message(name)`;
present with a decoder → the decoder runs on the same message bounds. -/
def parser_message_extended (st : PState) (stream : List Nat) (n0 length : Nat) :
    Except EErr PState := do
  let n := n0 + 5
  let id ← liftE st (getByte stream n)
  let n := n + 1
  if id = 0 then do
    let handshakeBytes := pySlice stream n (n + (length - 2))
    let handshake ← liftE st (bdecode handshakeBytes)
    let m ← liftE st (dictGet handshake (strBytes "m"))
    let entries ← liftE st (dictItems m)
    let assoc := entries.foldl
      (fun acc kv =>
        match kv.2 with
        | .int number =>
            if number = 0 then
              -- disable this extension: the filtered table is bound to a
              -- local variable in the source and discarded
              let _local := acc.filter (fun e => e.2 ≠ kv.1)
              acc
            else alistSet acc number kv.1
        | _ =>
            -- a non-integer `m` value would be stored under a non-int key,
            -- which a one-byte sub-ID can never look up; it is dropped here
            acc)
      st.assoc
    .ok { st with assoc := assoc }
  else
    match alistGet st.assoc (id : Int) with
    | some name =>
        match extendedMessageHandlers name with
        | none =>
            -- log, then the bare hook `self.new_extended_message(name)`
            .ok (new_extended_message st name [])
        | some handler => handler st stream (n - 6) length
    | none =>
        -- unknown extended ID: warning only, no event
        .ok st

/-- The `message_parsers` registry built by the `@register_message`
decorators: numeric message ID → handler.  `none` models the `KeyError` a
lookup of an unregistered ID raises. -/
def messageHandlers (id : Nat) :
    Option (PState → List Nat → Nat → Nat → Except EErr PState) :=
  match id with
  | 0 => some parse_message_choke
  | 1 => some parse_message_unchoke
  | 2 => some parse_message_interested
  | 3 => some parse_message_not_interested
  | 4 => some parse_message_have
  | 5 => some parse_message_bitfield
  | 6 => some parse_message_request
  | 7 => some parse_message_piece
  | 8 => some parse_message_cancel
  | 9 => some parse_message_port
  | 13 => some parse_message_suggest_piece
  | 14 => some parse_message_have_all
  | 15 => some parse_message_have_none
  | 16 => some parse_message_reject
  | 17 => some parse_message_allowed_fast
  | 20 => some parser_message_extended
  | _ => none

/-- `BitTorrentParser.parse_message`: one framing step at offset `n`.
Raises `UnexpectedEndOfStreamError` when `n + 4 >= len(stream)` (note `>=`:
this fires even when exactly the 4 prefix bytes remain); reads the big-endian
length prefix; returns `n + 4` for a keep-alive; otherwise reads the ID byte
and, inside a `try` whose `except KeyError` both covers the registry lookup
of an unknown ID and any `KeyError` escaping a handler, checks that the
declared body fits the buffer (`UnexpectedEndOfStreamError` — not a
`KeyError`, so it propagates) and runs the handler.  The `except` branch
emits the generic `'unknown'` event and framing continues at
`n + length + 4`. -/
def parse_message (st : PState) (stream : List Nat) (n : Nat) :
    Except EErr (PState × Nat) :=
  if n + 4 ≥ stream.length then .error (.unexpectedEndOfStream, st)
  else
    match readU32 stream n with
    | .error e => .error (e, st)
    | .ok length =>
      if length = 0 then .ok (st, n + 4)
      else
        match getByte stream (n + 4) with
        | .error e => .error (e, st)
        | .ok id =>
          -- `length > 16393` only logs a warning; no state change
          let attempt : Except EErr PState :=
            if n + 4 + length > stream.length then
              .error (.unexpectedEndOfStream, st)
            else
              match messageHandlers id with
              | some handler => handler st stream n length
              | none => .error (.keyError, st)
          match attempt with
          | .ok st' => .ok (st', n + length + 4)
          | .error (.keyError, st') =>
              match new_message st' (.str "unknown") [("message_id", .nat id)] with
              | .ok st'' => .ok (st'', n + length + 4)
              | .error e => .error e
          | .error e => .error e

/-- The handshake phase of `BitTorrentParser.parse_stream` (lines 62–79):
reject streams shorter than 68 bytes before reading anything; unpack the
fixed `!B19s8s20s20s` layout, store infohash and peer-id on the parser
*before* validating, then reject unless the length byte is 19 and the
protocol string matches. -/
def parse_stream_handshake (st : PState) (stream : List Nat) :
    Except EErr PState :=
  if stream.length < 68 then .error (.unexpectedEndOfStream, st)
  else
    let pstrlen := stream.getD 0 0
    let pstr := pySlice stream 1 20
    let _reserved := pySlice stream 20 28
    let infohash := pySlice stream 28 48
    let peerid := pySlice stream 48 68
    let st := { st with currentInfohash := infohash, currentPeerid := peerid }
    if pstrlen ≠ 19 ∨ pstr ≠ strBytes "BitTorrent protocol" then
      .error (.invalidStream, st)
    else .ok st

/-- The framing loop of `parse_stream`: `while n < len(stream): n =
parse_message(stream, n)`.  `fuel` only forces termination; every
`parse_message` advances `n` by at least 4, so a fuel of
`stream.length + 1` can never run out. -/
def parse_loop (stream : List Nat) : Nat → PState → Nat → Except EErr PState
  | 0, st, _ => .ok st
  | fuel + 1, st, n =>
      if n < stream.length then
        match parse_message st stream n with
        | .ok (st', n') => parse_loop stream fuel st' n'
        | .error e => .error e
      else .ok st

/-- `BitTorrentParser.parse_stream`: handshake, then frame messages from
offset 68 to the end of the buffer. -/
def parse_stream (st : PState) (stream : List Nat) : Except EErr PState := do
  let st ← parse_stream_handshake st stream
  parse_loop stream (stream.length + 1) st 68

/-- `parse_file` (without the file I/O): reset `current_pieces_size`, parse
the stream, and catch exactly `BitTorrentParserError` — the per-stream
processing boundary of the batch loop `parse_directory`.  Any other
exception propagates out of the boundary (and aborts the whole run). -/
def parse_file (st : PState) (stream : List Nat) : Except EErr PState :=
  let st := { st with currentPiecesSize := 0 }
  match parse_stream st stream with
  | .ok st' => .ok st'
  | .error (e, st') =>
      if e.isBitTorrentParserError then .ok st' else .error (e, st')

/-- The state a fresh `MyBitTorrentParser()` starts from, given the ambient
SHA-1 digest function and an already-populated descriptor store. -/
def initState (sha : List Nat → List Nat)
    (infos : List (List Nat × TorrentInfo)) : PState :=
  { sha1 := sha, assoc := [], currentInfohash := [], currentPeerid := [],
    infos := infos, pieces := [], currentPiecesSize := 0,
    events := [], logs := [] }

/-- The state reached by a computation, whether it returned normally or left
by exception (Python mutates the parser in place either way). -/
def stateOf : Except EErr PState → PState
  | .ok st => st
  | .error (_, st) => st

/-- The final state of a run that returned normally, `none` on an escaped
exception. -/
def okState : Except EErr PState → Option PState
  | .ok st => some st
  | .error _ => none

/-- The exception that escaped a run, `none` on normal return. -/
def errOf : Except EErr PState → Option PErr
  | .ok _ => none
  | .error (e, _) => some e

/-- The log records of a run's final state. -/
def logsOf (r : Except EErr PState) : List LogEvent :=
  (stateOf r).logs

/-- A concrete digest function for closed evaluations (every theorem that
depends on hashing is stated for an arbitrary `sha1`). -/
def sha0 : List Nat → List Nat := fun _ => []

/-- A well-formed 68-byte handshake: length byte 19, the protocol string,
8 reserved bytes, a 20-byte infohash, a 20-byte peer-id. -/
def hs68 : List Nat :=
  19 :: strBytes "BitTorrent protocol" ++ List.replicate 8 0
    ++ (List.range 20).map (fun i => i + 100)
    ++ (List.range 20).map (fun i => i + 200)

/-- Wire bytes of an extended message: 4-byte length prefix, ID 20, the
extended sub-ID, then the payload. -/
def extMsg (subId : Nat) (payload : List Nat) : List Nat :=
  [0, 0, 0, payload.length + 2, 20, subId] ++ payload

/-- Extension handshake registering `{"ut_pex": 5}`. -/
def msgRegisterPex : List Nat := extMsg 0 (strBytes "d1:md6:ut_pexi5eee")

/-- Extension handshake carrying `{"ut_pex": 0}` (disable `ut_pex`). -/
def msgDisablePex : List Nat := extMsg 0 (strBytes "d1:md6:ut_pexi0eee")

/-- A `ut_pex` payload with empty `added`/`added.f`/`dropped`. -/
def pexEmptyPayload : List Nat := strBytes "d5:added0:7:added.f0:7:dropped0:e"

/-- An extended message with sub-ID 5 carrying the empty `ut_pex` payload. -/
def msgPexSub5 : List Nat := extMsg 5 pexEmptyPayload

/-- C1: a single stream with a handshake, an extension handshake registering
`{"ut_pex": 5}`, an extension handshake carrying `{"ut_pex": 0}`, and then
an extended message with sub-ID 5. -/
def c1Stream : List Nat := hs68 ++ msgRegisterPex ++ msgDisablePex ++ msgPexSub5

/-- Wire bytes of a reject message: length 13, ID 16, then index, begin and
length fields (all bytes 9 here). -/
def c10RejectStream : List Nat := [0, 0, 0, 13, 16] ++ List.replicate 12 9

/-- Wire bytes of an allowed_fast message: length 13, ID 17. -/
def c10AllowedFastStream : List Nat := [0, 0, 0, 13, 17] ++ List.replicate 12 9

/-- C4 failing input (a): a valid handshake followed by a piece message whose
declared length is 1 (< 9), padded so the index/begin reads succeed — the
handler's `assert len(data) == block_size` fails. -/
def c4PieceStream : List Nat := hs68 ++ [0, 0, 0, 1, 7] ++ List.replicate 8 0

/-- C4 failing input (b): a valid handshake followed by an extension
handshake whose 1-byte payload `"x"` is not valid bencode — the sub-ID-0
branch calls `bencode.bdecode` outside any `try`. -/
def c4BencodeStream : List Nat := hs68 ++ [0, 0, 0, 3, 20, 0, 120]

/-- C5 stream 1: handshake plus the extension handshake registering
`{"ut_pex": 5}` — and nothing else. -/
def c5RegisterStream : List Nat := hs68 ++ msgRegisterPex

/-- C5 stream 2: handshake plus an extended message with sub-ID 5 — this
stream negotiates nothing itself. -/
def c5UseStream : List Nat := hs68 ++ msgPexSub5

/-- C8's concrete `ut_pex` payload: `added` of 12 raw bytes, `added.f` the
two flag bytes `0x03, 0x00`, `dropped` empty. -/
def c8PexPayload : List Nat :=
  strBytes "d5:added12:AAAAAAAAAAAA7:added.f2:" ++ [3, 0]
    ++ strBytes "7:dropped0:e"

/-- C9's concrete `ut_metadata` payload: `{msg_type: 1, piece: 0}`. -/
def c9MetadataPayload : List Nat := strBytes "d8:msg_typei1e5:piecei0ee"

/-- One fragment delivery: the `'piece'` observer event exactly as the piece
handler raises it (`new_message('piece', index=..., begin=..., data=...)`),
driving the reassembler. -/
def deliver_piece (st : PState) (data : List Nat) (begin_ index : Nat) :
    Except EErr PState :=
  new_message st (.str "piece")
    [("index", .nat index), ("begin", .nat begin_), ("data", .bytes data)]

/-- A fresh parser session whose descriptor store has one descriptor, for
the stream's current infohash. -/
def reassemblyInit (sha : List Nat → List Nat) (ih : List Nat)
    (info : TorrentInfo) : PState :=
  { initState sha [(ih, info)] with currentInfohash := ih }

/-- `deliver_piece` always returns normally; this is its resulting state. -/
def deliverS (st : PState) (d : List Nat) (b idx : Nat) : PState :=
  stateOf (deliver_piece st d b idx)

/-- C1 — code bug.  The claim says the `{"ut_pex": 0}` handshake unmaps
sub-ID 5 and the subsequent sub-ID-5 message is treated as an unknown
extended ID.  In the source the removal branch assigns the filtered table to
a fresh local variable (`extended_message_associations`) instead of the
module-level `extended_message_associtions`, so after `c1Stream` the table
still maps 5 to `"ut_pex"` and the final message is dispatched to the
`ut_pex` decoder — its tally report appears in the logs instead of the
message being dropped as unknown. -/
theorem c1_zero_entry_does_not_unmap :
    (okState (parse_stream (initState sha0 []) c1Stream)).map
        (fun s => (s.assoc, s.logs))
      = some ([((5 : Int), strBytes "ut_pex")], [LogEvent.utPex 0 0 0 0]) := by
  set_option maxRecDepth 10000 in rfl

/-- C2 — confirmed.  At any framing position whose 4-byte prefix declares a
body length `L > 0` with `n + 4 + L` past the buffer, `parse_message` raises
`UnexpectedEndOfStreamError` with the parser state untouched: no handler
runs and no observer event is emitted for that message. -/
theorem c2_truncated_message_fails (st : PState) (stream : List Nat)
    (n L : Nat) (h1 : n + 4 ≤ stream.length)
    (h2 : beVal (pySlice stream n (n + 4)) = L) (h3 : 0 < L)
    (h4 : stream.length < n + 4 + L) :
    parse_message st stream n = .error (.unexpectedEndOfStream, st) := by
  by_cases hge : n + 4 ≥ stream.length
  · simp [parse_message, hge]
  · have hlt : n + 4 < stream.length := by omega
    have hsl : (pySlice stream n (n + 4)).length = 4 := by
      simp [pySlice]
      omega
    obtain ⟨b, hb⟩ : ∃ b, stream[n + 4]? = some b :=
      ⟨stream[n + 4], List.getElem?_eq_getElem hlt⟩
    have hL : L ≠ 0 := Nat.pos_iff_ne_zero.mp h3
    simp [parse_message, hge, readU32, hsl, h2, hL, getByte, hb,
      show n + 4 + L > stream.length from h4]

/-- C2 witness: a 6-byte stream whose prefix declares a 9-byte body. -/
theorem c2_truncated_message_fails_witness :
    parse_message (initState sha0 []) [0, 0, 0, 9, 7, 0] 0
      = .error (.unexpectedEndOfStream, initState sha0 []) :=
  c2_truncated_message_fails (initState sha0 []) [0, 0, 0, 9, 7, 0] 0 9
    (by decide) (by decide) (by decide) (by decide)

/-- C7 counterexample.  A keep-alive whose 4 bytes are the last 4 bytes of
the buffer: the claim says the framer consumes exactly 4 bytes and
continues, but `parse_message` tests `n + 4 >= len(stream)` and raises
`UnexpectedEndOfStreamError` instead of returning offset `n + 4`. -/
theorem c7_trailing_keepalive_counterexample :
    parse_message (initState sha0 []) [0, 0, 0, 0] 0
        = .error (.unexpectedEndOfStream, initState sha0 [])
      ∧ parse_message (initState sha0 []) [0, 0, 0, 0] 0
        ≠ .ok (initState sha0 [], 4) := by
  refine ⟨rfl, ?_⟩
  intro h
  simp [parse_message] at h

/-- C7 — corrected.  At every position with `L = 0` and at least one byte
after the 4 prefix bytes (`n + 4 < len`), the framer consumes exactly 4
bytes, emits no event and touches no state; but when the keep-alive's 4
bytes are the last 4 bytes of the buffer (`n + 4 = len`), it raises
`UnexpectedEndOfStreamError` instead. -/
theorem c7_keepalive_amended (st : PState) (stream : List Nat) (n : Nat)
    (h0 : beVal (pySlice stream n (n + 4)) = 0) :
    (n + 4 < stream.length → parse_message st stream n = .ok (st, n + 4))
      ∧ (n + 4 = stream.length →
          parse_message st stream n = .error (.unexpectedEndOfStream, st)) := by
  constructor
  · intro hlt
    have hge : ¬ n + 4 ≥ stream.length := by omega
    have hsl : (pySlice stream n (n + 4)).length = 4 := by
      simp [pySlice]
      omega
    simp [parse_message, hge, readU32, hsl, h0]
  · intro heq
    have hge : n + 4 ≥ stream.length := by omega
    simp [parse_message, hge]

/-- C7 amended-claim witness: a keep-alive followed by one byte is consumed
as exactly 4 bytes; a keep-alive ending the buffer raises. -/
theorem c7_keepalive_amended_witness :
    parse_message (initState sha0 []) [0, 0, 0, 0, 0] 0 = .ok (initState sha0 [], 4)
      ∧ parse_message (initState sha0 []) [0, 0, 0, 0] 0
        = .error (.unexpectedEndOfStream, initState sha0 []) :=
  ⟨(c7_keepalive_amended (initState sha0 []) [0, 0, 0, 0, 0] 0 (by decide)).1
      (by decide),
    (c7_keepalive_amended (initState sha0 []) [0, 0, 0, 0] 0 (by decide)).2
      (by decide)⟩

/-- C10 counterexample.  Parsing a concrete reject message and a concrete
allowed_fast message: each emits exactly one event named after the message,
but with an *empty* attribute list — the decoded index/begin/length never
reach the observer, contradicting the claim that the events carry the
decoded fields. -/
theorem c10_events_carry_no_fields_counterexample :
    (parse_message (initState sha0 []) c10RejectStream 0).toOption.map
        (fun p => p.1.events) = some [Event.message (.str "reject") []]
      ∧ (parse_message (initState sha0 []) c10AllowedFastStream 0).toOption.map
        (fun p => p.1.events) = some [Event.message (.str "allowed_fast") []] :=
  ⟨rfl, rfl⟩

/-- C10 — corrected.  Each of the two handlers emits exactly one observer
event named after the message, but carrying no decoded fields: the source
decodes and logs index/begin/length (reject) and index (allowed_fast) and
then calls `__new_message` with the bare name. -/
theorem c10_reject_allowed_fast_events_amended (st : PState) (stream : List Nat)
    (n length : Nat) (h : n + 17 ≤ stream.length) :
    parse_message_reject st stream n length
        = .ok { st with events := st.events ++ [Event.message (.str "reject") []] }
      ∧ parse_message_allowed_fast st stream n length
        = .ok { st with events
            := st.events ++ [Event.message (.str "allowed_fast") []] } := by
  have hs1 : (pySlice stream (n + 5) (n + 5 + 4)).length = 4 := by
    simp [pySlice]
    omega
  have hs2 : (pySlice stream (n + 9) (n + 9 + 4)).length = 4 := by
    simp [pySlice]
    omega
  have hs3 : (pySlice stream (n + 13) (n + 13 + 4)).length = 4 := by
    simp [pySlice]
    omega
  constructor
  · simp [parse_message_reject, readU32, hs1, hs2, hs3, liftE, new_message,
      bind, Except.bind]
  · simp [parse_message_allowed_fast, readU32, hs1, liftE, new_message,
      bind, Except.bind]

/-- C10 amended-claim witness at the concrete reject/allowed_fast streams. -/
theorem c10_reject_allowed_fast_events_amended_witness :
    parse_message_reject (initState sha0 []) c10RejectStream 0 13
        = .ok { initState sha0 [] with
            events := [Event.message (.str "reject") []] }
      ∧ parse_message_allowed_fast (initState sha0 []) c10AllowedFastStream 0 13
        = .ok { initState sha0 [] with
            events := [Event.message (.str "allowed_fast") []] } :=
  ⟨(c10_reject_allowed_fast_events_amended (initState sha0 []) c10RejectStream
      0 13 (by decide)).1,
    (c10_reject_allowed_fast_events_amended (initState sha0 []) c10AllowedFastStream
      0 13 (by decide)).2⟩

/-- C4 — code bug.  The claim (and §7 of the spec) says every fatal error
unwinds exactly to the per-stream boundary and no single stream can abort
the run; but `parse_file` catches only `BitTorrentParserError`, while a
piece message with declared length < 9 raises `AssertionError` and an
extension handshake with a malformed bencoded payload raises
`bencode.BTL.BTFailure` — both escape `parse_file` (and hence the
`parse_directory` batch loop). -/
theorem c4_fatal_errors_escape_stream_boundary :
    errOf (parse_file (initState sha0 []) c4PieceStream)
        = some PErr.assertionError
      ∧ errOf (parse_file (initState sha0 []) c4BencodeStream)
        = some PErr.btFailure := by
  constructor
  · set_option maxRecDepth 10000 in rfl
  · set_option maxRecDepth 10000 in rfl

/-- C5 — code bug.  `extended_message_associtions` is a module-level dict
shared by all streams.  Parsing `c5RegisterStream` and then, through the
same per-stream boundary `parse_file`, the independent `c5UseStream`: the
sub-ID-5 message of the second stream is dispatched to the `ut_pex` decoder
registered by the *first* stream (its tally report appears in the logs),
whereas parsing `c5UseStream` from a fresh parser leaves no such report
(the sub-ID is unknown and the message is dropped).  The claim that
mappings negotiated in one stream are never visible while parsing another
is false on the code. -/
theorem c5_extension_table_shared_across_streams :
    (okState (parse_file (initState sha0 []) c5RegisterStream
          >>= fun st => parse_file st c5UseStream)).map
        (fun s => (s.assoc, s.logs))
      = some ([((5 : Int), strBytes "ut_pex")], [LogEvent.utPex 0 0 0 0])
      ∧ (okState (parse_file (initState sha0 []) c5UseStream)).map
        (fun s => (s.assoc, s.logs)) = some ([], []) := by
  constructor
  · set_option maxRecDepth 10000 in rfl
  · set_option maxRecDepth 10000 in rfl

/-- C8 — code bug.  On the claim's own example (two flag bytes `0x03, 0x00`)
the handler reports 2 peers added and 1 preferring encryption, but 0 seeders
where the claim (and the flag-bit semantics) says 1: the source's seeder
filter is `ord(i) & 0x02 == 1`, i.e. `(b & 2) == 1`, which compares an even
value with 1 and is unsatisfiable — the reported seeder tally is 0 for every
possible `added.f`. -/
theorem c8_seeder_tally_always_zero :
    logsOf (parse_message_ut_pex (initState sha0 [])
          (List.replicate 6 0 ++ c8PexPayload) 0 (c8PexPayload.length + 2))
        = [LogEvent.utPex 2 1 0 0]
      ∧ ∀ flags : List Nat,
          (flags.filter (fun b => b &&& 0x02 == 1)).length = 0 := by
  constructor
  · set_option maxRecDepth 10000 in rfl
  · intro flags
    rw [List.length_eq_zero, List.filter_eq_nil_iff]
    intro b _
    simp only [beq_iff_eq]
    intro hcontra
    have h0 : (b &&& 2).testBit 0 = true := by
      rw [hcontra]
      decide
    rw [Nat.testBit_and] at h0
    simp at h0

/-- C9 — code bug.  For a `ut_metadata` message with `msg_type = 1` the
source computes `length - 2 - bencode.bencode(ut_metadata)` — the `len(...)`
is missing, so an integer-minus-string `TypeError` is raised before any size
is reported and before the event carrying the piece index can be emitted:
the handler ends with the exception, an empty event list and an empty log. -/
theorem c9_metadata_data_raises_typeerror :
    errOf (parse_message_ut_metadata (initState sha0 [])
          (List.replicate 6 0 ++ c9MetadataPayload) 0 (c9MetadataPayload.length + 2))
        = some PErr.typeError
      ∧ (stateOf (parse_message_ut_metadata (initState sha0 [])
          (List.replicate 6 0 ++ c9MetadataPayload) 0
          (c9MetadataPayload.length + 2))).events = []
      ∧ (stateOf (parse_message_ut_metadata (initState sha0 [])
          (List.replicate 6 0 ++ c9MetadataPayload) 0
          (c9MetadataPayload.length + 2))).logs = [] := by
  refine ⟨?_, ?_, ?_⟩
  · set_option maxRecDepth 10000 in rfl
  · set_option maxRecDepth 10000 in rfl
  · set_option maxRecDepth 10000 in rfl

/-- C6 — confirmed.  The handshake phase of `parse_stream`: every buffer
shorter than 68 bytes is rejected with `UnexpectedEndOfStreamError` with the
state untouched (no field read); every buffer of at least 68 bytes whose
first byte is 19 and whose next 19 bytes spell `"BitTorrent protocol"`
decodes successfully, producing exactly the 20-byte infohash at offset 28
and the 20-byte peer-id at offset 48. -/
theorem c6_handshake_decoding (st : PState) (stream : List Nat) :
    (stream.length < 68 →
        parse_stream_handshake st stream = .error (.unexpectedEndOfStream, st))
      ∧ (68 ≤ stream.length → stream.getD 0 0 = 19 →
          pySlice stream 1 20 = strBytes "BitTorrent protocol" →
          parse_stream_handshake st stream
            = .ok { st with
                currentInfohash := pySlice stream 28 48,
                currentPeerid := pySlice stream 48 68 }) := by
  constructor
  · intro hlt
    simp [parse_stream_handshake, hlt]
  · intro hge h19 hpstr
    have hnlt : ¬ stream.length < 68 := by omega
    have h19' : stream[0]?.getD 0 = 19 := by
      simpa [List.getD] using h19
    simp [parse_stream_handshake, hnlt, h19', hpstr]

/-- C6 witness: a 1-byte stream is rejected unread; the concrete valid
handshake `hs68` yields exactly its bytes 28–47 and 48–67. -/
theorem c6_handshake_decoding_witness :
    parse_stream_handshake (initState sha0 []) [0]
        = .error (.unexpectedEndOfStream, initState sha0 [])
      ∧ parse_stream_handshake (initState sha0 []) hs68
        = .ok { initState sha0 [] with
            currentInfohash := pySlice hs68 28 48,
            currentPeerid := pySlice hs68 48 68 } :=
  ⟨(c6_handshake_decoding (initState sha0 []) [0]).1 (by decide),
    (c6_handshake_decoding (initState sha0 []) hs68).2 (by decide) (by decide)
      (by decide)⟩

theorem deliver_piece_eq (st : PState) (d : List Nat) (b idx : Nat) :
    deliver_piece st d b idx =
      check_piece { st with
        events := st.events ++ [Event.message (.str "piece")
          [("index", .nat idx), ("begin", .nat b), ("data", .bytes d)]],
        currentPiecesSize := st.currentPiecesSize + d.length,
        pieces := alistSet st.pieces (st.currentInfohash, idx)
          (alistGetD st.pieces (st.currentInfohash, idx) ++ [(d, b)]) } idx := by
  simp [deliver_piece, new_message, attrNat, attrBytes, alistGet, liftE,
    bind, Except.bind]

theorem check_piece_isOk (st : PState) (idx : Nat) :
    check_piece st idx = .ok (stateOf (check_piece st idx)) := by
  unfold check_piece
  rcases alistGet st.infos st.currentInfohash with _ | info
  · rfl
  · dsimp only
    split_ifs <;> rfl

theorem deliver_piece_isOk (st : PState) (d : List Nat) (b idx : Nat) :
    deliver_piece st d b idx = .ok (deliverS st d b idx) := by
  rw [deliverS]
  conv_lhs => rw [deliver_piece_eq, check_piece_isOk]
  conv_rhs => rw [deliver_piece_eq]

theorem logsOf_two_delivers (st : PState) (dA : List Nat) (bA : Nat)
    (dB : List Nat) (bB idx : Nat) :
    logsOf (deliver_piece st dA bA idx >>= fun s => deliver_piece s dB bB idx)
      = (deliverS (deliverS st dA bA idx) dB bB idx).logs := by
  rw [deliver_piece_isOk]
  simp only [bind, Except.bind, logsOf, deliverS, stateOf]

theorem assemble_nil (plen : Int) (piece : List Nat) (n fuel : Nat) :
    assembleBlocks plen (fuel + 1) [] piece n = piece := by
  by_cases h : (n : Int) < plen <;> simp [assembleBlocks, h]

theorem assemble_single0 (plen : Int) (A : List Nat) :
    assembleBlocks plen 2 [(A, 0)] [] 0 = if (0 : Int) < plen then A else [] := by
  by_cases h : (0 : Int) < plen
  · simp [assembleBlocks, h, assemble_nil]
  · simp [assembleBlocks, h]

theorem assemble_single4 (plen : Int) (B : List Nat) :
    assembleBlocks plen 2 [(B, 4)] [] 0 = [] := by
  by_cases h : (0 : Int) < plen <;> simp [assembleBlocks, h]

theorem assemble_pair (plen : Int) (A B : List Nat) :
    assembleBlocks plen 3 [(A, 0), (B, 4)] [] 0 =
      if (0 : Int) < plen then
        if (A.length : Int) < plen then
          if A.length = 4 then A ++ B else A
        else A
      else [] := by
  by_cases h0 : (0 : Int) < plen
  · by_cases hlt : (A.length : Int) < plen
    · by_cases h4 : A.length = 4
      · simp [assembleBlocks, h0, hlt, h4, assemble_nil]
      · have h4' : ¬ (4 = A.length) := fun h => h4 h.symm
        simp [assembleBlocks, h0, hlt, h4, h4']
    · simp [assembleBlocks, h0, hlt]
  · simp [assembleBlocks, h0]

theorem deliverS_eq (st : PState) (d : List Nat) (b idx : Nat) :
    deliverS st d b idx =
      stateOf (check_piece { st with
        events := st.events ++ [Event.message (.str "piece")
          [("index", .nat idx), ("begin", .nat b), ("data", .bytes d)]],
        currentPiecesSize := st.currentPiecesSize + d.length,
        pieces := alistSet st.pieces (st.currentInfohash, idx)
          (alistGetD st.pieces (st.currentInfohash, idx) ++ [(d, b)]) } idx) := by
  rw [deliverS, deliver_piece_eq]

theorem c3_case_neg_pieceLength (sha : List Nat → List Nat) (ih : List Nat) (plen : Int)
    (blob dataA dataB : List Nat) (idx : Nat) (hneg : plen < 0) :
    logsOf (deliver_piece (reassemblyInit sha ih ⟨plen, blob⟩) dataA 0 idx
        >>= fun s => deliver_piece s dataB 4 idx)
      = logsOf (deliver_piece (reassemblyInit sha ih ⟨plen, blob⟩) dataB 4 idx
        >>= fun s => deliver_piece s dataA 0 idx) := by
  rw [logsOf_two_delivers, logsOf_two_delivers]
  have h0 : ¬ ((0 : Int) < plen) := by omega
  have hA : ¬ ((dataA.length : Int) = plen) := by
    have : (0 : Int) ≤ (dataA.length : Int) := Int.ofNat_nonneg _
    omega
  have hB : ¬ ((dataB.length : Int) = plen) := by
    have : (0 : Int) ≤ (dataB.length : Int) := Int.ofNat_nonneg _
    omega
  have hZ : ¬ ((0 : Int) = plen) := by omega
  simp [deliverS_eq, check_piece, reassemblyInit, initState, alistGet,
    alistGetD, alistSet, alistDel, sortFrags, insertFrag, assembleBlocks,
    stateOf, h0, hA, hB, hZ]

theorem c3_case_zero_pieceLength (sha : List Nat → List Nat) (ih : List Nat)
    (blob dataA dataB : List Nat) (idx : Nat) :
    logsOf (deliver_piece (reassemblyInit sha ih ⟨0, blob⟩) dataA 0 idx
        >>= fun s => deliver_piece s dataB 4 idx)
      = logsOf (deliver_piece (reassemblyInit sha ih ⟨0, blob⟩) dataB 4 idx
        >>= fun s => deliver_piece s dataA 0 idx) := by
  rw [logsOf_two_delivers, logsOf_two_delivers]
  by_cases hh : sha [] = pySlice blob (idx * 20) (idx * 20 + 20)
  · simp [deliverS_eq, check_piece, reassemblyInit, initState, alistGet,
      alistGetD, alistSet, alistDel, sortFrags, insertFrag, assembleBlocks,
      stateOf, hh]
  · simp [deliverS_eq, check_piece, reassemblyInit, initState, alistGet,
      alistGetD, alistSet, alistDel, sortFrags, insertFrag, assembleBlocks,
      stateOf, hh]

theorem c3_case_pos_complete_first (sha : List Nat → List Nat) (ih : List Nat) (plen : Int)
    (blob dataA dataB : List Nat) (idx : Nat) (hpos : 0 < plen)
    (hA : (dataA.length : Int) = plen) :
    logsOf (deliver_piece (reassemblyInit sha ih ⟨plen, blob⟩) dataA 0 idx
        >>= fun s => deliver_piece s dataB 4 idx)
      = logsOf (deliver_piece (reassemblyInit sha ih ⟨plen, blob⟩) dataB 4 idx
        >>= fun s => deliver_piece s dataA 0 idx) := by
  rw [logsOf_two_delivers, logsOf_two_delivers]
  have hZ : ¬ ((0 : Int) = plen) := by omega
  have hlt : ¬ ((dataA.length : Int) < plen) := by omega
  by_cases hh : sha dataA = pySlice blob (idx * 20) (idx * 20 + 20)
  · simp [deliverS_eq, check_piece, reassemblyInit, initState, alistGet,
      alistGetD, alistSet, alistDel, sortFrags, insertFrag, assembleBlocks,
      stateOf, hpos, hA, hZ, hlt, hh]
  · simp [deliverS_eq, check_piece, reassemblyInit, initState, alistGet,
      alistGetD, alistSet, alistDel, sortFrags, insertFrag, assembleBlocks,
      stateOf, hpos, hA, hZ, hlt, hh]

theorem c3_case_pos_incomplete_first (sha : List Nat → List Nat) (ih : List Nat) (plen : Int)
    (blob dataA dataB : List Nat) (idx : Nat) (hpos : 0 < plen)
    (hA : ¬ ((dataA.length : Int) = plen)) :
    logsOf (deliver_piece (reassemblyInit sha ih ⟨plen, blob⟩) dataA 0 idx
        >>= fun s => deliver_piece s dataB 4 idx)
      = logsOf (deliver_piece (reassemblyInit sha ih ⟨plen, blob⟩) dataB 4 idx
        >>= fun s => deliver_piece s dataA 0 idx) := by
  rw [logsOf_two_delivers, logsOf_two_delivers]
  have hZ : ¬ ((0 : Int) = plen) := by omega
  by_cases hlt : (dataA.length : Int) < plen
  · by_cases h4 : dataA.length = 4
    · rw [h4] at hlt hA
      push_cast at hlt hA
      by_cases hAB : (4 : Int) + (dataB.length : Int) = plen
      · by_cases hh : sha (dataA ++ dataB) = pySlice blob (idx * 20) (idx * 20 + 20)
        · simp [deliverS_eq, check_piece, reassemblyInit, initState, alistGet,
            alistGetD, alistSet, alistDel, sortFrags, insertFrag, assemble_pair,
            assemble_single0, assemble_single4, stateOf, hpos, hA, hZ, hlt, h4,
            hAB, hh]
        · simp [deliverS_eq, check_piece, reassemblyInit, initState, alistGet,
            alistGetD, alistSet, alistDel, sortFrags, insertFrag, assemble_pair,
            assemble_single0, assemble_single4, stateOf, hpos, hA, hZ, hlt, h4,
            hAB, hh]
      · simp [deliverS_eq, check_piece, reassemblyInit, initState, alistGet,
          alistGetD, alistSet, alistDel, sortFrags, insertFrag, assemble_pair,
          assemble_single0, assemble_single4, stateOf, hpos, hA, hZ, hlt, h4, hAB]
    · simp [deliverS_eq, check_piece, reassemblyInit, initState, alistGet,
        alistGetD, alistSet, alistDel, sortFrags, insertFrag, assemble_pair,
        assemble_single0, assemble_single4, stateOf, hpos, hA, hZ, hlt, h4]
  · simp [deliverS_eq, check_piece, reassemblyInit, initState, alistGet,
      alistGetD, alistSet, alistDel, sortFrags, insertFrag, assemble_pair,
      assemble_single0, assemble_single4, stateOf, hpos, hA, hZ, hlt]

/-- C3 — confirmed.  Piece reassembly is order-independent: for a piece
index whose infohash has a descriptor, delivering the fragments
`(dataA, 0)` and `(dataB, 4)` in either order yields identical completion
log events and an identical hash match/mismatch outcome, for every digest
function, descriptor and pair of fragment payloads. -/
theorem c3_reassembly_order_independent (sha : List Nat → List Nat)
    (ih : List Nat) (info : TorrentInfo) (dataA dataB : List Nat) (idx : Nat) :
    logsOf (deliver_piece (reassemblyInit sha ih info) dataA 0 idx
        >>= fun s => deliver_piece s dataB 4 idx)
      = logsOf (deliver_piece (reassemblyInit sha ih info) dataB 4 idx
        >>= fun s => deliver_piece s dataA 0 idx) := by
  obtain ⟨plen, blob⟩ := info
  rcases lt_trichotomy plen 0 with hneg | rfl | hpos
  · exact c3_case_neg_pieceLength sha ih plen blob dataA dataB idx hneg
  · exact c3_case_zero_pieceLength sha ih blob dataA dataB idx
  · by_cases hA : (dataA.length : Int) = plen
    · exact c3_case_pos_complete_first sha ih plen blob dataA dataB idx hpos hA
    · exact c3_case_pos_incomplete_first sha ih plen blob dataA dataB idx hpos hA
